import Mathlib

/-!
Verification of the VAYO matching backend against its specification.

The development shallowly embeds the core of `matching_system`:
the hybrid matching algorithm, diversity filter and decision engine of
`celery_tasks.py`, the AI-service fallbacks of `ai_services.py`, and the
connection registry of `websocket_server.py`.  External collaborators
(PostgreSQL, Pinecone, the OpenAI client, socket emission) are modelled by
an `Env` record holding the outcome of each collaborator call; Python
floats are modelled by `ℚ`; Python dicts whose key set varies are modelled
by records with `Option` fields; a raised `KeyError` is modelled by
`Except.error`.
-/

/-- Community record as it flows through `celery_tasks.py` as a Python dict.
Rows from `filter_communities_by_location` and `get_popular_communities`
carry no `match_score` key (`match_score = none`); the enriched rows built
in `_hybrid_matching_algorithm` carry `match_score = some s`. -/
structure Community where
  community_id : String
  community_name : String
  category : String
  member_count : Int
  recent_activity : Int
  match_score : Option ℚ
deriving DecidableEq, Inhabited

/-- One hit returned by `db_manager.vector_search` (Pinecone), keeping the
fields `_hybrid_matching_algorithm` reads: id and score. -/
structure VectorHit where
  community_id : String
  match_score : ℚ
deriving DecidableEq, Inhabited

/-- Active-member row used by `generate_ai_introduction` (only `username`
is read). -/
structure Member where
  username : String
deriving DecidableEq, Inhabited

/-- Tier enum from `models.MatchTier` (models.py is imported by the code
but not present; the three tiers are fixed by the spec and by every use in
`celery_tasks.py`). -/
inductive MatchTier
  | soulmate
  | explorer
  | fallback
deriving DecidableEq

/-- Modelled from the spec: `models.CommunityMatch` (models.py missing from
the sources); its fields are exactly those populated by
`_to_community_match` in celery_tasks.py. -/
structure CommunityMatch where
  community_id : String
  community_name : String
  category : String
  match_score : ℚ
  member_count : Int
  recent_activity : Int
deriving DecidableEq

/-- Modelled from the spec: `models.MatchResult` (models.py missing from
the sources).  Fields are those populated in `_apply_decision_engine`;
per the spec, `profile_update_requested` (code name
`requires_profile_update`) and `ai_intro_generated` default to false and
`auto_joined_community` to absent when a construction site omits them. -/
structure MatchResult where
  task_id : String
  user_id : String
  tier : MatchTier
  /-- the `matches` field of the source model; `matches` is reserved in Lean -/
  matchList : List CommunityMatch
  auto_joined_community : Option String
  ai_intro_generated : Bool
  requires_profile_update : Bool
  processing_time_ms : Int
deriving DecidableEq

/-- Outcomes of the external collaborator calls made during one task:
the data-store query results and whether each OpenAI call succeeds
(and with what payload).  `_hybrid_matching_algorithm` and
`_apply_decision_engine` are deterministic functions of these outcomes. -/
structure Env where
  /-- result of `db_manager.filter_communities_by_location` (stage 1) -/
  filtered_communities : List Community
  /-- result of `db_manager.vector_search` (stage 2) -/
  vector_matches : List VectorHit
  /-- result of `db_manager.get_popular_communities(limit=5)` -/
  popular : List Community
  /-- result of `db_manager.auto_join_community` -/
  join_succeeds : Bool
  /-- result of `db_manager.get_community_members_for_intro` -/
  active_members : List Member
  /-- `community.get("description", "")` from `db_manager.get_community_details` -/
  community_description : String
  /-- chat completion for the introduction: `some text`, or `none` on failure -/
  chat_outcome : Option String
  /-- moderation category scores (hate, harassment, violence, sexual), or `none` on failure -/
  moderation_outcome : Option (ℚ × ℚ × ℚ × ℚ)
  /-- LLM sanitize call: `some (sanitized_bio, enriched_tags, pii_found)`, or `none` on failure -/
  llm_sanitize : Option (String × List String × Bool)
  /-- embedding call: `some vector`, or `none` on failure -/
  embed_outcome : Option (List ℚ)

/-- Body of the `for i in range(3, len(matches))` loop of
`_apply_diversity_filter`: first entry of the tail (the part of the list
from index 3 on) whose category differs from the dominant one, together
with its offset into that tail. -/
def findDiverse (dominant_category : String) : List Community → Option (Nat × Community)
  | [] => none
  | m :: rest =>
    if m.category ≠ dominant_category then some (0, m)
    else (findDiverse dominant_category rest).map (fun p => (p.1 + 1, p.2))

/-- `_apply_diversity_filter` (celery_tasks.py lines 184-207).  The Python
`len(Counter(top_3_categories)) == 1` test is the number of distinct
categories being 1, i.e. `dedup.length = 1`; `matches.pop(i)` followed by
`matches.insert(2, diverse_match)` is `eraseIdx` followed by `insertIdx`. -/
def apply_diversity_filter (matchList : List Community) : List Community :=
  if matchList.length < 4 then matchList
  else
    if ((matchList.take 3).map (fun m => m.category)).dedup.length = 1 then
      match findDiverse (((matchList.take 3).map (fun m => m.category)).headD "")
          (matchList.drop 3) with
      | none => matchList
      | some (j, diverse_match) =>
        (matchList.eraseIdx (3 + j)).insertIdx 2 diverse_match
    else matchList

/-- If `findDiverse` returns an entry, that entry is in the searched tail
at the returned offset and its category differs from the dominant one. -/
theorem findDiverse_get (dom : String) :
    ∀ (l : List Community) (j : Nat) (x : Community),
      findDiverse dom l = some (j, x) → l[j]? = some x ∧ x.category ≠ dom := by
  intro l
  induction l with
  | nil => intro j x h; simp [findDiverse] at h
  | cons m rest ih =>
    intro j x h
    rw [findDiverse] at h
    by_cases hm : m.category ≠ dom
    · rw [if_pos hm] at h
      simp only [Option.some.injEq, Prod.mk.injEq] at h
      obtain ⟨rfl, rfl⟩ := h
      exact ⟨by simp, hm⟩
    · rw [if_neg hm] at h
      rw [Option.map_eq_some'] at h
      obtain ⟨⟨j', x'⟩, hrest, hfx⟩ := h
      simp only [Prod.mk.injEq] at hfx
      obtain ⟨rfl, rfl⟩ := hfx
      have hih := ih j' x' hrest
      exact ⟨by simpa using hih.1, hih.2⟩

/-- If some entry of the tail has a differing category, `findDiverse`
finds one. -/
theorem findDiverse_of_exists (dom : String) :
    ∀ (l : List Community), (∃ m ∈ l, m.category ≠ dom) →
      ∃ j x, findDiverse dom l = some (j, x) := by
  intro l
  induction l with
  | nil => intro h; simp at h
  | cons m rest ih =>
    intro h
    by_cases hm : m.category ≠ dom
    · exact ⟨0, m, by rw [findDiverse, if_pos hm]⟩
    · obtain ⟨y, hy, hyc⟩ := h
      rcases List.mem_cons.mp hy with rfl | hy'
      · exact absurd hyc hm
      · obtain ⟨j, x, hj⟩ := ih ⟨y, hy', hyc⟩
        exact ⟨j + 1, x, by rw [findDiverse, if_neg hm, hj]; rfl⟩

/-- Entries of the tail strictly before the offset returned by
`findDiverse` all carry the dominant category (the loop takes the first
differing entry). -/
theorem findDiverse_first (dom : String) :
    ∀ (l : List Community) (j : Nat) (x : Community),
      findDiverse dom l = some (j, x) →
      ∀ k, k < j → ∀ y, l[k]? = some y → y.category = dom := by
  intro l
  induction l with
  | nil => intro j x h; simp [findDiverse] at h
  | cons m rest ih =>
    intro j x h k hk y hy
    rw [findDiverse] at h
    by_cases hm : m.category ≠ dom
    · rw [if_pos hm] at h
      simp only [Option.some.injEq, Prod.mk.injEq] at h
      omega
    · rw [if_neg hm] at h
      rw [Option.map_eq_some'] at h
      obtain ⟨⟨j', x'⟩, hrest, hfx⟩ := h
      simp only [Prod.mk.injEq] at hfx
      obtain ⟨rfl, rfl⟩ := hfx
      cases k with
      | zero =>
        simp only [List.getElem?_cons_zero, Option.some.injEq] at hy
        subst hy
        exact not_not.mp hm
      | succ k' =>
        have hy' : rest[k']? = some y := by simpa using hy
        exact ih j' x' hrest k' (by omega) y hy'

/-- Moving the element at index `j` to the front is a permutation. -/
theorem cons_eraseIdx_perm :
    ∀ (l : List Community) (j : Nat) (x : Community),
      l[j]? = some x → (x :: l.eraseIdx j).Perm l := by
  intro l
  induction l with
  | nil => intro j x h; simp at h
  | cons a t ih =>
    intro j x h
    cases j with
    | zero =>
      simp only [List.getElem?_cons_zero, Option.some.injEq] at h
      subst h
      simp [List.eraseIdx]
    | succ j' =>
      have h' : t[j']? = some x := by simpa using h
      have hp := ih j' x h'
      have e1 : (a :: t).eraseIdx (j' + 1) = a :: t.eraseIdx j' := by
        simp [List.eraseIdx]
      rw [e1]
      exact (List.Perm.swap a x (t.eraseIdx j')).trans (hp.cons a)

/-- Characterization of the diversity filter on a list whose first three
entries share a category and whose tail contains a differing entry found
at offset `j`: the found entry is moved to index 2. -/
theorem apply_diversity_filter_eq (a b c : Community) (rest : List Community)
    (j : Nat) (x : Community)
    (hab : a.category = b.category) (hbc : b.category = c.category)
    (hfind : findDiverse a.category rest = some (j, x)) :
    apply_diversity_filter (a :: b :: c :: rest) =
      a :: b :: x :: c :: rest.eraseIdx j := by
  have hrest : rest ≠ [] := by
    intro hnil
    rw [hnil] at hfind
    simp [findDiverse] at hfind
  have hlen : ¬ (a :: b :: c :: rest).length < 4 := by
    cases rest with
    | nil => exact absurd rfl hrest
    | cons _ _ => simp
  have hba : b.category = a.category := hab.symm
  have hca : c.category = a.category := (hab.trans hbc).symm
  have htop : ((a :: b :: c :: rest).take 3).map (fun m => m.category)
      = [a.category, a.category, a.category] := by
    simp [hba, hca]
  have hdedup : ([a.category, a.category, a.category] : List String).dedup
      = [a.category] := by
    rw [List.dedup_cons_of_mem (by simp), List.dedup_cons_of_mem (by simp)]
    rw [show ([a.category] : List String).dedup = [a.category] from by
      rw [List.dedup_cons_of_not_mem (by simp), List.dedup_nil]]
  have herase : (a :: b :: c :: rest).eraseIdx (3 + j)
      = a :: b :: c :: rest.eraseIdx j := by
    rw [show 3 + j = j + 3 from by omega]
    simp [List.eraseIdx]
  rw [apply_diversity_filter, if_neg hlen]
  have hcond : (((a :: b :: c :: rest).take 3).map (fun m => m.category)).dedup.length = 1 := by
    rw [htop, hdedup]
    rfl
  have hdom : (((a :: b :: c :: rest).take 3).map (fun m => m.category)).headD "" = a.category := by
    rw [htop]
    rfl
  rw [if_pos hcond, show (a :: b :: c :: rest).drop 3 = rest from rfl, hdom, hfind]
  show ((a :: b :: c :: rest).eraseIdx (3 + j)).insertIdx 2 x
      = a :: b :: x :: c :: rest.eraseIdx j
  rw [herase]
  simp [List.insertIdx]

/-- The diversity filter never adds or drops entries: its output is a
permutation of its input, in every case. -/
theorem apply_diversity_filter_perm (l : List Community) :
    (apply_diversity_filter l).Perm l := by
  by_cases hlen : l.length < 4
  · rw [apply_diversity_filter, if_pos hlen]
  · rcases l with _ | ⟨a, _ | ⟨b, _ | ⟨c, rest⟩⟩⟩
    · simp at hlen
    · simp at hlen
    · simp at hlen
    · rw [apply_diversity_filter, if_neg hlen]
      by_cases hded :
          (((a :: b :: c :: rest).take 3).map (fun m => m.category)).dedup.length = 1
      · rw [if_pos hded]
        rcases hf : findDiverse ((((a :: b :: c :: rest).take 3).map
            (fun m => m.category)).headD "") ((a :: b :: c :: rest).drop 3) with _ | ⟨j, x⟩
        · rw [hf]
        · rw [hf]
          have hget := (findDiverse_get _ _ _ _ hf).1
          have hx : rest[j]? = some x := by simpa using hget
          have herase : (a :: b :: c :: rest).eraseIdx (3 + j)
              = a :: b :: c :: rest.eraseIdx j := by
            rw [show 3 + j = j + 3 from by omega]
            simp [List.eraseIdx]
          have hinsert : ((a :: b :: c :: rest).eraseIdx (3 + j)).insertIdx 2 x
              = a :: b :: x :: c :: rest.eraseIdx j := by
            rw [herase]
            simp [List.insertIdx]
          show (((a :: b :: c :: rest).eraseIdx (3 + j)).insertIdx 2 x).Perm
            (a :: b :: c :: rest)
          rw [hinsert]
          have hperm : (x :: rest.eraseIdx j).Perm rest := cons_eraseIdx_perm rest j x hx
          refine List.Perm.cons a (List.Perm.cons b ?_)
          exact (List.Perm.swap c x (rest.eraseIdx j)).trans (hperm.cons c)
      · rw [if_neg hded]

/-- Example candidate A from the spec scenario: {A, Tech, 0.95}. -/
def exA : Community := ⟨"A", "A", "Tech", 100, 10, some (95/100)⟩

/-- Example candidate B from the spec scenario: {B, Tech, 0.92}. -/
def exB : Community := ⟨"B", "B", "Tech", 90, 9, some (92/100)⟩

/-- Example candidate C from the spec scenario: {C, Tech, 0.89}. -/
def exC : Community := ⟨"C", "C", "Tech", 80, 8, some (89/100)⟩

/-- Example candidate D from the spec scenario: {D, Gaming, 0.86}. -/
def exD : Community := ⟨"D", "D", "Gaming", 70, 7, some (86/100)⟩

/-- Example candidate E from the spec scenario: {E, Tech, 0.84}. -/
def exE : Community := ⟨"E", "E", "Tech", 60, 6, some (84/100)⟩

/-- C1: for every candidate list of length at least 4 whose first 3 entries
share one category and which contains a later entry of a different
category, `_apply_diversity_filter` moves the first such differing entry to
index 2, the returned list has at least 2 distinct categories among its
first 3 entries and is a permutation of the input; a list of length below
4, or one whose top 3 entries are not all of one category, is returned
unchanged; and the spec scenario [A,B,C,D,E] yields [A,B,D,C,E]. -/
theorem diversity_filter_claim :
    (∀ (a b c : Community) (rest : List Community),
        a.category = b.category → b.category = c.category →
        (∃ m ∈ rest, m.category ≠ a.category) →
        ∃ j x, rest[j]? = some x ∧ x.category ≠ a.category ∧
          (∀ k, k < j → ∀ y, rest[k]? = some y → y.category = a.category) ∧
          apply_diversity_filter (a :: b :: c :: rest)
            = a :: b :: x :: c :: rest.eraseIdx j ∧
          (apply_diversity_filter (a :: b :: c :: rest)).Perm (a :: b :: c :: rest) ∧
          2 ≤ (((apply_diversity_filter (a :: b :: c :: rest)).take 3).map
            (fun m => m.category)).dedup.length)
    ∧ (∀ l : List Community, l.length < 4 → apply_diversity_filter l = l)
    ∧ (∀ l : List Community,
        ((l.take 3).map (fun m => m.category)).dedup.length ≠ 1 →
        apply_diversity_filter l = l)
    ∧ apply_diversity_filter [exA, exB, exC, exD, exE] = [exA, exB, exD, exC, exE] := by
  refine ⟨?_, ?_, ?_, ?_⟩
  · intro a b c rest hab hbc hex
    obtain ⟨j, x, hfind⟩ := findDiverse_of_exists a.category rest hex
    have hget := findDiverse_get a.category rest j x hfind
    have heq := apply_diversity_filter_eq a b c rest j x hab hbc hfind
    refine ⟨j, x, hget.1, hget.2, ?_, heq, apply_diversity_filter_perm _, ?_⟩
    · exact fun k hk y hy => findDiverse_first a.category rest j x hfind k hk y hy
    · rw [heq]
      have hmap : (((a :: b :: x :: c :: rest.eraseIdx j).take 3).map
          (fun m => m.category)) = [a.category, a.category, x.category] := by
        simp [hab.symm]
      rw [hmap, List.dedup_cons_of_mem (by simp),
        List.dedup_cons_of_not_mem (by simpa using fun h => hget.2 h.symm),
        List.dedup_cons_of_not_mem (by simp), List.dedup_nil]
      simp
  · intro l h
    rw [apply_diversity_filter, if_pos h]
  · intro l h
    by_cases hlen : l.length < 4
    · rw [apply_diversity_filter, if_pos hlen]
    · rw [apply_diversity_filter, if_neg hlen, if_neg h]
  · rfl

/-- Witness for C1: the filter evaluated at the concrete spec scenario,
with the general statement applied to that scenario. -/
theorem diversity_filter_claim_witness :
    apply_diversity_filter [exA, exB, exC, exD, exE] = [exA, exB, exD, exC, exE] ∧
    (apply_diversity_filter [exA, exB, exC, exD, exE]).Perm [exA, exB, exC, exD, exE] := by
  refine ⟨diversity_filter_claim.2.2.2, ?_⟩
  obtain ⟨j, x, -, -, -, -, hperm, -⟩ :=
    diversity_filter_claim.1 exA exB exC [exD, exE] rfl rfl
      ⟨exD, by simp, by decide⟩
  exact hperm

/-- Word-level executable model of `_basic_pii_removal` (ai_services.py
lines 70-76): the two Python regex substitutions (emails, phone numbers)
are modelled by scrubbing each whitespace-separated word that has an email
or phone shape.  No claim depends on the internals of this scrub, only on
the sanitize fallback returning this scrub of the bio together with the
original tags. -/
def basic_pii_removal (text : String) : String :=
  String.intercalate " " ((text.splitOn " ").map (fun w =>
    if w.contains '@' then "[email removed]"
    else if w.length ≥ 10 && w.all (fun ch => ch.isDigit || ch = '-' || ch = '.') then
      "[phone removed]"
    else w))

/-- `AIService.sanitize_and_enrich_profile` (ai_services.py lines 19-68):
on success of the LLM call, return its parsed JSON triple; on any failure,
fall back to the regex scrub of the bio with the original tags and
`pii_removed = False`. -/
def sanitize_and_enrich_profile (env : Env) (bio : String)
    (interest_tags : List String) : String × List String × Bool :=
  match env.llm_sanitize with
  | some result => result
  | none => (basic_pii_removal bio, interest_tags, false)

/-- `AIService._check_toxicity` (ai_services.py lines 153-171): the
maximum of the four moderation category scores, or 0.0 if the moderation
call fails. -/
def check_toxicity (env : Env) (_text : String) : ℚ :=
  match env.moderation_outcome with
  | some (hate, harassment, violence, sexual) =>
    max (max (max hate harassment) violence) sexual
  | none => 0

/-- `AIService.generate_ai_introduction` (ai_services.py lines 98-151):
mention the most active member; on chat success run the toxicity check on
the intro; on chat failure return the generic fallback intro with
`mentioned_member = None` and toxicity 0.0. -/
def generate_ai_introduction (env : Env) (_user_bio community_name
    _community_description : String) (active_members : List Member) :
    String × Option String × ℚ :=
  let mentioned_member := active_members.head?.map (fun m => m.username)
  match env.chat_outcome with
  | some intro_text => (intro_text, mentioned_member, check_toxicity env intro_text)
  | none =>
    ("Welcome to " ++ community_name ++ "! We are excited to have you here.",
      none, 0)

/-- `_to_community_match` (celery_tasks.py lines 305-314): the explicit
`score` argument wins; otherwise `community.get("match_score", 0.0)`. -/
def to_community_match (community : Community) (score : Option ℚ) : CommunityMatch :=
  { community_id := community.community_id
    community_name := community.community_name
    category := community.category
    match_score :=
      match score with
      | some s => s
      | none => community.match_score.getD 0
    member_count := community.member_count
    recent_activity := community.recent_activity }

/-- `_apply_decision_engine` (celery_tasks.py lines 210-302).  The Python
`top_match["match_score"]` raises `KeyError` when the record has no such
key, modelled by `Except.error`; thresholds are the literals 0.87, 0.55
and 0.75 of the source. -/
def apply_decision_engine (env : Env) (task_id user_id user_bio : String)
    (matchList : List Community) : Except String MatchResult :=
  match matchList with
  | [] =>
    Except.ok
      { task_id := task_id, user_id := user_id, tier := MatchTier.fallback
        matchList := env.popular.map (fun c => to_community_match c (some 0))
        auto_joined_community := none, ai_intro_generated := false
        requires_profile_update := true, processing_time_ms := 0 }
  | top_match :: _ =>
    match top_match.match_score with
    | none => Except.error "KeyError: match_score"
    | some top_score =>
      if top_score > 87/100 then
        let joined := env.join_succeeds
        let ai_intro_generated :=
          if joined then
            let intro := generate_ai_introduction env user_bio
              top_match.community_name env.community_description env.active_members
            if intro.2.2 < 75/100 then true else false
          else false
        Except.ok
          { task_id := task_id, user_id := user_id, tier := MatchTier.soulmate
            matchList := [to_community_match top_match none]
            auto_joined_community := some top_match.community_id
            ai_intro_generated := ai_intro_generated
            requires_profile_update := false, processing_time_ms := 0 }
      else if top_score ≥ 55/100 then
        Except.ok
          { task_id := task_id, user_id := user_id, tier := MatchTier.explorer
            matchList := (matchList.take 5).map (fun m => to_community_match m none)
            auto_joined_community := none, ai_intro_generated := false
            requires_profile_update := false, processing_time_ms := 0 }
      else
        Except.ok
          { task_id := task_id, user_id := user_id, tier := MatchTier.fallback
            matchList := env.popular.map (fun c => to_community_match c (some 0))
            auto_joined_community := none, ai_intro_generated := false
            requires_profile_update := true, processing_time_ms := 0 }

/-- Python dict comprehension `{c["community_id"]: c for c in
filtered_communities}` followed by key lookup: the last record with the
given id wins. -/
def community_map_lookup (filtered : List Community) (cid : String) :
    Option Community :=
  filtered.foldl (fun acc c => if c.community_id = cid then some c else acc) none

/-- Enriched record appended for one vector hit in
`_hybrid_matching_algorithm` (celery_tasks.py lines 165-176). -/
def enrich_entry (vm : VectorHit) (community : Community) : Community :=
  { community_id := vm.community_id
    community_name := community.community_name
    category := community.category
    member_count := community.member_count
    recent_activity := community.recent_activity
    match_score := some vm.match_score }

/-- Merge step of `_hybrid_matching_algorithm` (celery_tasks.py lines
161-176): keep each vector hit whose id has a stage-1 record, enriched
with that record; hits without a stage-1 record are skipped. -/
def merge_vector_scores (filtered : List Community)
    (vector_matches : List VectorHit) : List Community :=
  vector_matches.filterMap (fun vm =>
    (community_map_lookup filtered vm.community_id).map (enrich_entry vm))

/-- `_hybrid_matching_algorithm` (celery_tasks.py lines 129-181) as a
function of the collaborator outcomes: empty locality filter returns the
popular list unchanged and skips stages 2-3; otherwise merge the vector
scores onto the stage-1 records and apply the diversity filter. -/
def hybrid_matching_algorithm (env : Env) : List Community :=
  if env.filtered_communities.isEmpty then env.popular
  else
    apply_diversity_filter
      (merge_vector_scores env.filtered_communities env.vector_matches)

/-- Submission fields consumed by `process_match_task`. -/
structure UserData where
  user_id : String
  bio : String
  interest_tags : List String
  city : String
  timezone : String

/-- `process_match_task` (celery_tasks.py lines 46-126) restricted to its
data flow: sanitize (never fails), embed (failure fails the task), hybrid
matching, decision engine.  Cache writes, state updates and the publish
call are side effects outside the embedding; the returned value is the
published result. -/
def process_match_task (env : Env) (task_id : String) (user_data : UserData) :
    Except String MatchResult :=
  let sanitized := sanitize_and_enrich_profile env user_data.bio user_data.interest_tags
  match env.embed_outcome with
  | none => Except.error "CollaboratorUnavailable: embedding"
  | some _user_vector =>
    apply_decision_engine env task_id user_data.user_id sanitized.1
      (hybrid_matching_algorithm env)

/-- Tier of a decision-engine outcome, when it did not raise. -/
def tier_of : Except String MatchResult → Option MatchTier
  | Except.ok r => some r.tier
  | Except.error _ => none

/-- Matches list of a decision-engine outcome, when it did not raise. -/
def matches_of : Except String MatchResult → Option (List CommunityMatch)
  | Except.ok r => some r.matchList
  | Except.error _ => none

/-- Profile-update flag of a decision-engine outcome. -/
def rpu_of : Except String MatchResult → Option Bool
  | Except.ok r => some r.requires_profile_update
  | Except.error _ => none

/-- Auto-joined community of a decision-engine outcome. -/
def auto_joined_of : Except String MatchResult → Option (Option String)
  | Except.ok r => some r.auto_joined_community
  | Except.error _ => none

/-- Intro flag of a decision-engine outcome. -/
def ai_intro_of : Except String MatchResult → Option Bool
  | Except.ok r => some r.ai_intro_generated
  | Except.error _ => none

/-- All-collaborators-fail environment used for concrete witnesses. -/
def env0 : Env :=
  ⟨[], [], [], false, [], "", none, none, none, some []⟩

/-- Concrete top candidate with a given similarity score. -/
def exTop (s : ℚ) : Community := ⟨"top", "top", "Tech", 1, 0, some s⟩

/-- C2: the decision engine classifies a non-empty ranked list by its top
score: above 0.87 Soulmate; between 0.55 and 0.87 inclusive Explorer with
the first min(5, length) entries as matches and no profile-update request;
below 0.55 Fallback; and an empty list is Fallback. -/
theorem decision_engine_tier_claim :
    (∀ (env : Env) (tid uid bio : String),
        tier_of (apply_decision_engine env tid uid bio []) = some MatchTier.fallback)
    ∧ (∀ (env : Env) (tid uid bio : String) (top : Community)
        (rest : List Community) (s : ℚ), top.match_score = some s → s > 87/100 →
        tier_of (apply_decision_engine env tid uid bio (top :: rest))
          = some MatchTier.soulmate)
    ∧ (∀ (env : Env) (tid uid bio : String) (top : Community)
        (rest : List Community) (s : ℚ), top.match_score = some s →
        55/100 ≤ s → s ≤ 87/100 →
        tier_of (apply_decision_engine env tid uid bio (top :: rest))
            = some MatchTier.explorer
          ∧ matches_of (apply_decision_engine env tid uid bio (top :: rest))
            = some (((top :: rest).take 5).map (fun m => to_community_match m none))
          ∧ rpu_of (apply_decision_engine env tid uid bio (top :: rest)) = some false)
    ∧ (∀ (env : Env) (tid uid bio : String) (top : Community)
        (rest : List Community) (s : ℚ), top.match_score = some s → s < 55/100 →
        tier_of (apply_decision_engine env tid uid bio (top :: rest))
          = some MatchTier.fallback) := by
  refine ⟨?_, ?_, ?_, ?_⟩
  · intro env tid uid bio
    rfl
  · intro env tid uid bio top rest s hs hgt
    simp only [apply_decision_engine]
    rw [hs]
    simp only [if_pos hgt]
    rfl
  · intro env tid uid bio top rest s hs hge hle
    have hngt : ¬ (s > 87/100) := not_lt.mpr hle
    simp only [apply_decision_engine]
    rw [hs]
    simp only [if_neg hngt, if_pos hge]
    exact ⟨rfl, rfl, rfl⟩
  · intro env tid uid bio top rest s hs hlt
    have hnge : ¬ (s ≥ 55/100) := not_le.mpr hlt
    have hngt : ¬ (s > 87/100) := by
      refine not_lt.mpr (le_of_lt (lt_of_lt_of_le hlt ?_))
      norm_num
    simp only [apply_decision_engine]
    rw [hs]
    simp only [if_neg hngt, if_neg hnge]
    rfl

/-- Witness for C2: the tier boundaries at 0.87, 0.55, 0.549999 and 0.90,
and the empty list, evaluated on a concrete environment. -/
theorem decision_engine_tier_claim_witness :
    tier_of (apply_decision_engine env0 "t" "u" "b" [exTop (87/100)])
        = some MatchTier.explorer
    ∧ tier_of (apply_decision_engine env0 "t" "u" "b" [exTop (55/100)])
        = some MatchTier.explorer
    ∧ tier_of (apply_decision_engine env0 "t" "u" "b" [exTop (549999/1000000)])
        = some MatchTier.fallback
    ∧ tier_of (apply_decision_engine env0 "t" "u" "b" [exTop (9/10)])
        = some MatchTier.soulmate
    ∧ tier_of (apply_decision_engine env0 "t" "u" "b" [])
        = some MatchTier.fallback := by
  refine ⟨?_, ?_, ?_, ?_, ?_⟩
  · exact (decision_engine_tier_claim.2.2.1 env0 "t" "u" "b" (exTop (87/100)) []
      (87/100) rfl (by norm_num) le_rfl).1
  · exact (decision_engine_tier_claim.2.2.1 env0 "t" "u" "b" (exTop (55/100)) []
      (55/100) rfl le_rfl (by norm_num)).1
  · exact decision_engine_tier_claim.2.2.2 env0 "t" "u" "b"
      (exTop (549999/1000000)) [] (549999/1000000) rfl (by norm_num)
  · exact decision_engine_tier_claim.2.1 env0 "t" "u" "b" (exTop (9/10)) []
      (9/10) rfl (by norm_num)
  · exact decision_engine_tier_claim.1 env0 "t" "u" "b"

/-- C5: on a Soulmate outcome the result keeps exactly the top entry,
records the auto-joined community id, and marks the introduction as
generated exactly when the auto-join reported success and the toxicity
score is strictly below 0.75; the join record is independent of the
introduction outcome (the statement holds for every `Env`, in particular
for every chat and moderation outcome). -/
theorem soulmate_claim :
    ∀ (env : Env) (tid uid bio : String) (top : Community)
      (rest : List Community) (s : ℚ),
      top.match_score = some s → s > 87/100 →
      ∃ r, apply_decision_engine env tid uid bio (top :: rest) = Except.ok r
        ∧ r.tier = MatchTier.soulmate
        ∧ r.matchList = [to_community_match top none]
        ∧ r.auto_joined_community = some top.community_id
        ∧ (r.ai_intro_generated = true ↔ env.join_succeeds = true ∧
            (generate_ai_introduction env bio top.community_name
              env.community_description env.active_members).2.2 < 75/100) := by
  intro env tid uid bio top rest s hs hgt
  simp only [apply_decision_engine]
  rw [hs]
  simp only [if_pos hgt]
  refine ⟨_, rfl, rfl, rfl, rfl, ?_⟩
  by_cases hj : env.join_succeeds
  · by_cases ht : (generate_ai_introduction env bio top.community_name
        env.community_description env.active_members).2.2 < 75/100
    · simp [hj, ht]
    · simp [hj, ht]
  · simp [hj]

/-- Environment for the Soulmate witness: auto-join succeeds, the chat
call succeeds, the moderation call fails (score 0.0). -/
def env5 : Env := ⟨[], [], [], true, [], "", some "hi", none, none, some []⟩

/-- Witness for C5: a concrete Soulmate outcome with top score 0.90. -/
theorem soulmate_claim_witness :
    tier_of (apply_decision_engine env5 "t" "u" "b" [exTop (9/10)])
        = some MatchTier.soulmate
    ∧ auto_joined_of (apply_decision_engine env5 "t" "u" "b" [exTop (9/10)])
        = some (some "top")
    ∧ ai_intro_of (apply_decision_engine env5 "t" "u" "b" [exTop (9/10)])
        = some true := by
  obtain ⟨r, hr, htier, hm, hauto, hintro⟩ :=
    soulmate_claim env5 "t" "u" "b" (exTop (9/10)) [] (9/10) rfl (by norm_num)
  have hai : r.ai_intro_generated = true := by
    refine hintro.mpr ⟨rfl, ?_⟩
    have htox : (generate_ai_introduction env5 "b" (exTop (9/10)).community_name
        env5.community_description env5.active_members).2.2 = 0 := rfl
    rw [htox]
    norm_num
  rw [hr]
  exact ⟨by simp [tier_of, htier], by simp [auto_joined_of, hauto, exTop],
    by simp [ai_intro_of, hai]⟩

/-- Environment for the C10 counterexample: moderation outage (moderation
call fails), chat call succeeds, but the auto-join reports failure. -/
def env10 : Env := ⟨[], [], [], false, [], "", some "hi", none, none, some []⟩

/-- C10 counterexample: during a moderation-service outage a Soulmate
result whose auto-join reported failure carries
`ai_intro_generated = false`, so a Soulmate result produced during a
moderation outage is not always marked `ai_intro_generated = true`. -/
theorem moderation_outage_counterexample :
    env10.moderation_outcome = none
    ∧ tier_of (apply_decision_engine env10 "t" "u" "b" [exTop (9/10)])
        = some MatchTier.soulmate
    ∧ ai_intro_of (apply_decision_engine env10 "t" "u" "b" [exTop (9/10)])
        = some false := by
  refine ⟨rfl, ?_, ?_⟩
  · simp only [apply_decision_engine]
    rw [show (exTop (9/10)).match_score = some (9/10) from rfl]
    simp only [if_pos (by norm_num : (9:ℚ)/10 > 87/100)]
    rfl
  · simp only [apply_decision_engine]
    rw [show (exTop (9/10)).match_score = some (9/10) from rfl]
    simp only [if_pos (by norm_num : (9:ℚ)/10 > 87/100)]
    rfl

/-- C10 amended: a failed moderation call yields toxicity 0.0, a failed
introduction generation yields the fallback intro with toxicity 0.0, and
during a moderation outage a Soulmate result whose auto-join reported
success is always marked `ai_intro_generated = true` (the toxicity gate
passes by default on collaborator failure). -/
theorem moderation_outage_amended :
    (∀ (env : Env) (text : String), env.moderation_outcome = none →
        check_toxicity env text = 0)
    ∧ (∀ (env : Env) (bio name desc : String) (ms : List Member),
        env.chat_outcome = none →
        generate_ai_introduction env bio name desc ms
          = ("Welcome to " ++ name ++ "! We are excited to have you here.",
              none, 0))
    ∧ (∀ (env : Env) (tid uid bio : String) (top : Community)
        (rest : List Community) (s : ℚ),
        top.match_score = some s → s > 87/100 →
        env.moderation_outcome = none → env.join_succeeds = true →
        ai_intro_of (apply_decision_engine env tid uid bio (top :: rest))
          = some true) := by
  refine ⟨?_, ?_, ?_⟩
  · intro env text h
    simp [check_toxicity, h]
  · intro env bio name desc ms h
    simp [generate_ai_introduction, h]
  · intro env tid uid bio top rest s hs hgt hmod hjoin
    have htox : (generate_ai_introduction env bio top.community_name
        env.community_description env.active_members).2.2 = 0 := by
      cases hchat : env.chat_outcome with
      | some t => simp [generate_ai_introduction, hchat, check_toxicity, hmod]
      | none => simp [generate_ai_introduction, hchat]
    simp only [apply_decision_engine]
    rw [hs]
    simp only [if_pos hgt]
    simp only [ai_intro_of, hjoin, htox, Option.some.injEq]
    norm_num

/-- Witness for the amended C10: concrete moderation-outage environment
with a successful auto-join gives `ai_intro_generated = true`, and the
toxicity check returns 0 under the outage. -/
theorem moderation_outage_amended_witness :
    check_toxicity env5 "any" = 0
    ∧ ai_intro_of (apply_decision_engine env5 "t" "u" "b" [exTop (9/10)])
        = some true :=
  ⟨moderation_outage_amended.1 env5 "any" rfl,
    moderation_outage_amended.2.2 env5 "t" "u" "b" (exTop (9/10)) [] (9/10)
      rfl (by norm_num) rfl rfl⟩

/-- Popular-community row as returned by `get_popular_communities`: the
SQL selects no `match_score` column, so the record has none. -/
def popNoScore : Community := ⟨"pop1", "Popular One", "General", 500, 50, none⟩

/-- Environment for C3: the locality filter returns no rows and the
global popular list is non-empty. -/
def env3 : Env := ⟨[], [], [popNoScore], false, [], "", none, none, none, some []⟩

/-- C3 (observed code behavior): with an empty locality-filter result the
matcher skips stages 2-3 and returns the popular rows unchanged, and the
pipeline then raises `KeyError` on `top_match["match_score"]` because
popular rows carry no such key — the task fails instead of producing the
Fallback result with scores 0.0 that the claim describes. -/
theorem empty_locality_keyerror :
    hybrid_matching_algorithm env3 = env3.popular
    ∧ process_match_task env3 "t1" ⟨"u1", "some bio", [], "city", "tz"⟩
        = Except.error "KeyError: match_score" := by
  exact ⟨rfl, rfl⟩

/-- If a lookup in the community map returns a record, that record is a
stage-1 row with the looked-up id (helper over the dict fold). -/
theorem community_map_lookup_aux :
    ∀ (l : List Community) (cid : String) (acc : Option Community) (c : Community),
      l.foldl (fun acc c => if c.community_id = cid then some c else acc) acc
          = some c →
      (c ∈ l ∧ c.community_id = cid) ∨ acc = some c := by
  intro l cid
  induction l with
  | nil => intro acc c h; exact Or.inr h
  | cons a t ih =>
    intro acc c h
    simp only [List.foldl_cons] at h
    rcases ih _ c h with h1 | h2
    · exact Or.inl ⟨List.mem_cons_of_mem a h1.1, h1.2⟩
    · by_cases ha : a.community_id = cid
      · rw [if_pos ha] at h2
        have hac : a = c := by injection h2
        subst hac
        exact Or.inl ⟨List.mem_cons_self a t, ha⟩
      · rw [if_neg ha] at h2
        exact Or.inr h2

/-- A successful dict lookup returns a stage-1 row with the looked-up id. -/
theorem community_map_lookup_mem (l : List Community) (cid : String)
    (c : Community) (h : community_map_lookup l cid = some c) :
    c ∈ l ∧ c.community_id = cid := by
  rcases community_map_lookup_aux l cid none c h with h1 | h2
  · exact h1
  · exact absurd h2 (by simp)

/-- A failed dict lookup means no stage-1 row carries the id (helper). -/
theorem community_map_lookup_none_aux :
    ∀ (l : List Community) (cid : String) (acc : Option Community),
      l.foldl (fun acc c => if c.community_id = cid then some c else acc) acc
          = none →
      (∀ c ∈ l, c.community_id ≠ cid) ∧ acc = none := by
  intro l cid
  induction l with
  | nil => intro acc h; exact ⟨by simp, h⟩
  | cons a t ih =>
    intro acc h
    simp only [List.foldl_cons] at h
    have hstep := ih _ h
    by_cases ha : a.community_id = cid
    · rw [if_pos ha] at hstep
      exact absurd hstep.2 (by simp)
    · rw [if_neg ha] at hstep
      refine ⟨?_, hstep.2⟩
      intro c hc
      rcases List.mem_cons.mp hc with rfl | hct
      · exact ha
      · exact hstep.1 c hct

/-- A failed dict lookup means no stage-1 row carries the id. -/
theorem community_map_lookup_none (l : List Community) (cid : String)
    (h : community_map_lookup l cid = none) :
    ∀ c ∈ l, c.community_id ≠ cid :=
  (community_map_lookup_none_aux l cid none h).1

/-- On a non-empty locality-filter result, the matcher is the diversity
filter applied to the merged list. -/
theorem hybrid_matching_algorithm_eq (env : Env)
    (hne : env.filtered_communities ≠ []) :
    hybrid_matching_algorithm env
      = apply_diversity_filter
          (merge_vector_scores env.filtered_communities env.vector_matches) := by
  have hfalse : env.filtered_communities.isEmpty = false := by
    cases hc : env.filtered_communities with
    | nil => exact absurd hc hne
    | cons a t => rfl
  rw [hybrid_matching_algorithm, hfalse]
  rfl

/-- Stage-1 rows of the C4/C9 scenario (no match_score key). -/
def locA : Community := ⟨"A", "A", "Tech", 100, 10, none⟩

/-- Stage-1 row B. -/
def locB : Community := ⟨"B", "B", "Tech", 90, 9, none⟩

/-- Stage-1 row C. -/
def locC : Community := ⟨"C", "C", "Tech", 80, 8, none⟩

/-- Stage-1 row D (the only Gaming row). -/
def locD : Community := ⟨"D", "D", "Gaming", 70, 7, none⟩

/-- Stage-1 row E. -/
def locE : Community := ⟨"E", "E", "Tech", 60, 6, none⟩

/-- Environment for C4: the similarity search returns A 0.95, B 0.92,
C 0.89, D 0.86, E 0.84 in score order; D is the only Gaming row. -/
def env4 : Env :=
  ⟨[locA, locB, locC, locD, locE],
    [⟨"A", 95/100⟩, ⟨"B", 92/100⟩, ⟨"C", 89/100⟩, ⟨"D", 86/100⟩, ⟨"E", 84/100⟩],
    [], false, [], "", none, none, none, some []⟩

/-- C4 counterexample: on the spec's own diversity scenario the matcher
returns scores [0.95, 0.92, 0.86, 0.89, 0.84], which is not sorted by
similarity_score descending (0.86 precedes 0.89); the code applies no sort
and no member_count/community_id tie-break of its own. -/
theorem hybrid_not_sorted_counterexample :
    (hybrid_matching_algorithm env4).map (fun m => m.match_score.getD 0)
        = [95/100, 92/100, 86/100, 89/100, 84/100]
    ∧ ¬ (hybrid_matching_algorithm env4).Sorted
        (fun m1 m2 => m1.match_score.getD 0 ≥ m2.match_score.getD 0) := by
  refine ⟨rfl, ?_⟩
  intro h
  rw [show hybrid_matching_algorithm env4 = [exA, exB, exD, exC, exE] from rfl] at h
  rw [List.sorted_cons, List.sorted_cons, List.sorted_cons] at h
  have hDC := h.2.2.1 exC (by simp)
  rw [show exD.match_score.getD 0 = 86/100 from rfl,
    show exC.match_score.getD 0 = 89/100 from rfl] at hDC
  norm_num at hDC

/-- C4 amended: the matcher is deterministic in the locality-filter,
similarity-search and popular-list outputs, and on a non-empty
locality-filter result it returns the diversity filter applied to the
merged list, a permutation of the merged list in similarity-search order;
it applies no sort of its own, so the output is not in general sorted by
similarity_score descending and there is no member_count/community_id
tie-break. -/
theorem hybrid_order_amended :
    (∀ env env' : Env,
        env.filtered_communities = env'.filtered_communities →
        env.vector_matches = env'.vector_matches →
        env.popular = env'.popular →
        hybrid_matching_algorithm env = hybrid_matching_algorithm env')
    ∧ (∀ env : Env, env.filtered_communities ≠ [] →
        hybrid_matching_algorithm env
            = apply_diversity_filter
                (merge_vector_scores env.filtered_communities env.vector_matches)
          ∧ (hybrid_matching_algorithm env).Perm
              (merge_vector_scores env.filtered_communities env.vector_matches)) := by
  constructor
  · intro env env' h1 h2 h3
    rw [hybrid_matching_algorithm, hybrid_matching_algorithm, h1, h2, h3]
  · intro env hne
    have heq := hybrid_matching_algorithm_eq env hne
    exact ⟨heq, heq ▸ apply_diversity_filter_perm _⟩

/-- Witness for the amended C4 at the concrete scenario environment. -/
theorem hybrid_order_amended_witness :
    hybrid_matching_algorithm env4
        = apply_diversity_filter
            (merge_vector_scores env4.filtered_communities env4.vector_matches)
    ∧ hybrid_matching_algorithm env4 = hybrid_matching_algorithm env4 :=
  ⟨(hybrid_order_amended.2 env4 (by simp [env4])).1,
    hybrid_order_amended.1 env4 env4 rfl rfl rfl⟩

/-- C9: on a non-empty locality-filter result, every entry of the
matcher's output is a similarity hit merged onto its stage-1 record, no
output entry has an id absent from the stage-1 output, and a hit whose id
has no stage-1 record contributes no output entry. -/
theorem merge_only_stage1_claim :
    ∀ env : Env, env.filtered_communities ≠ [] →
      (∀ e ∈ hybrid_matching_algorithm env,
          (∃ vm ∈ env.vector_matches, ∃ c,
              community_map_lookup env.filtered_communities vm.community_id
                  = some c
                ∧ e = enrich_entry vm c)
          ∧ ∃ c ∈ env.filtered_communities, c.community_id = e.community_id)
      ∧ (∀ vm ∈ env.vector_matches,
          community_map_lookup env.filtered_communities vm.community_id = none →
          ∀ e ∈ hybrid_matching_algorithm env,
            e.community_id ≠ vm.community_id) := by
  intro env hne
  have heq := hybrid_matching_algorithm_eq env hne
  have hmem : ∀ e ∈ hybrid_matching_algorithm env,
      ∃ vm ∈ env.vector_matches, ∃ c,
        community_map_lookup env.filtered_communities vm.community_id = some c
          ∧ e = enrich_entry vm c := by
    intro e he
    rw [heq] at he
    have he' := (apply_diversity_filter_perm _).mem_iff.mp he
    rw [merge_vector_scores, List.mem_filterMap] at he'
    obtain ⟨vm, hvm, hfe⟩ := he'
    rw [Option.map_eq_some'] at hfe
    obtain ⟨c, hc, hec⟩ := hfe
    exact ⟨vm, hvm, c, hc, hec.symm⟩
  constructor
  · intro e he
    obtain ⟨vm, hvm, c, hc, hec⟩ := hmem e he
    have hcm := community_map_lookup_mem _ _ _ hc
    refine ⟨⟨vm, hvm, c, hc, hec⟩, c, hcm.1, ?_⟩
    rw [hec]
    exact hcm.2
  · intro vm hvm hnone e he hid
    obtain ⟨vm', hvm', c, hc, hec⟩ := hmem e he
    have hcm := community_map_lookup_mem _ _ _ hc
    have hcid : c.community_id = vm.community_id := by
      rw [hcm.2, ← hid, hec]
      rfl
    exact community_map_lookup_none _ _ hnone c hcm.1 hcid

/-- Environment for the C9 witness: one stage-1 row A; the similarity
search returns a hit for A and a stale hit Z with no stage-1 record. -/
def env9 : Env :=
  ⟨[locA], [⟨"A", 95/100⟩, ⟨"Z", 50/100⟩], [], false, [], "", none, none,
    none, some []⟩

/-- Witness for C9: the stale hit Z is dropped and the single output entry
is hit A merged onto stage-1 row A, whose id the stage-1 output contains. -/
theorem merge_only_stage1_claim_witness :
    hybrid_matching_algorithm env9 = [enrich_entry ⟨"A", 95/100⟩ locA]
    ∧ locA.community_id = (enrich_entry ⟨"A", 95/100⟩ locA).community_id := by
  refine ⟨rfl, ?_⟩
  have h := ((merge_only_stage1_claim env9 (by simp [env9])).1
    (enrich_entry ⟨"A", 95/100⟩ locA)
    (by rw [show hybrid_matching_algorithm env9
        = [enrich_entry ⟨"A", 95/100⟩ locA] from rfl]; simp)).2
  obtain ⟨c, hc, hid⟩ := h
  have hca : c = locA := by simpa [env9] using hc
  rw [← hca]
  exact hid

/-- C8: if the LLM sanitize call fails, the sanitize step returns the
regex-scrubbed bio with the original tags and never raises; the task
pipeline errors exactly on embed failure or on a decision-engine error —
never at the sanitize step, whose outcome type is total. -/
theorem sanitize_fallback_claim :
    (∀ (env : Env) (bio : String) (tags : List String),
        env.llm_sanitize = none →
        sanitize_and_enrich_profile env bio tags
          = (basic_pii_removal bio, tags, false))
    ∧ (∀ (env : Env) (tid : String) (ud : UserData),
        env.embed_outcome = none →
        process_match_task env tid ud
          = Except.error "CollaboratorUnavailable: embedding")
    ∧ (∀ (env : Env) (tid : String) (ud : UserData) (v : List ℚ),
        env.embed_outcome = some v →
        process_match_task env tid ud
          = apply_decision_engine env tid ud.user_id
              (sanitize_and_enrich_profile env ud.bio ud.interest_tags).1
              (hybrid_matching_algorithm env)) := by
  refine ⟨?_, ?_, ?_⟩
  · intro env bio tags h
    simp [sanitize_and_enrich_profile, h]
  · intro env tid ud h
    simp [process_match_task, h]
  · intro env tid ud v h
    simp [process_match_task, h]

/-- Witness for C8: a concrete failed-sanitize environment returns the
scrubbed bio with the original tags, and with the embedding available the
task result is exactly the decision-engine outcome. -/
theorem sanitize_fallback_claim_witness :
    sanitize_and_enrich_profile env0 "contact me a@b.com" ["x"]
        = (basic_pii_removal "contact me a@b.com", ["x"], false)
    ∧ process_match_task env0 "t" ⟨"u", "b", [], "c", "z"⟩
        = apply_decision_engine env0 "t" "u"
            (sanitize_and_enrich_profile env0 "b" []).1
            (hybrid_matching_algorithm env0) :=
  ⟨sanitize_fallback_claim.1 env0 "contact me a@b.com" ["x"] rfl,
    sanitize_fallback_claim.2.2 env0 "t" ⟨"u", "b", [], "c", "z"⟩ [] rfl⟩

/-- Connection-registry state of websocket_server.py: the module-level
`active_connections` dict (user_id to set of sids, sets as duplicate-free
lists) and the socket.io per-sid session store mapping sid to user_id. -/
structure WsState where
  active_connections : List (String × List String)
  sessions : List (String × String)
deriving DecidableEq

/-- Python dict lookup on an association list (used for both
`active_connections[user_id]` and the session store). -/
def assoc_lookup {α : Type} : List (String × α) → String → Option α
  | [], _ => none
  | (k', v') :: rest, k => if k' == k then some v' else assoc_lookup rest k

/-- Python dict assignment: replace the value at the key in place, or
append a new entry. -/
def assoc_set {α : Type} : List (String × α) → String → α → List (String × α)
  | [], k, v => [(k, v)]
  | (k', v') :: rest, k, v =>
    if k' == k then (k, v) :: rest else (k', v') :: assoc_set rest k v

/-- Python `del dict[key]`. -/
def assoc_remove {α : Type} : List (String × α) → String → List (String × α)
  | [], _ => []
  | (k', v') :: rest, k =>
    if k' == k then rest else (k', v') :: assoc_remove rest k

/-- Python `set.add`: no-op when the sid is already present. -/
def conn_add (sids : List String) (sid : String) : List String :=
  if sid ∈ sids then sids else sids ++ [sid]

/-- `connect` handler (websocket_server.py lines 116-153): reject when no
user id is supplied; otherwise add the sid to the user's connection set
(creating it if absent) and record the session. -/
def ws_connect (st : WsState) (sid : String) (auth_user : Option String) :
    WsState × Bool :=
  match auth_user with
  | none => (st, false)
  | some user_id =>
    ({ active_connections := assoc_set st.active_connections user_id
        (conn_add ((assoc_lookup st.active_connections user_id).getD []) sid)
       sessions := assoc_set st.sessions sid user_id }, true)

/-- `disconnect` handler (websocket_server.py lines 156-174): discard the
sid from the user's set; delete the user key entirely when the set becomes
empty. -/
def ws_disconnect (st : WsState) (sid : String) : WsState :=
  match assoc_lookup st.sessions sid with
  | none => st
  | some user_id =>
    match assoc_lookup st.active_connections user_id with
    | none => st
    | some sids =>
      if (sids.erase sid).isEmpty then
        { st with active_connections :=
            assoc_remove st.active_connections user_id }
      else
        { st with active_connections :=
            assoc_set st.active_connections user_id (sids.erase sid) }

/-- `broadcast_to_user` (websocket_server.py lines 88-113): no registered
connections drops the result with no attempts; otherwise every sid in the
(copied) set is attempted in order, and each failed delivery discards just
that sid from the live set — the user key is kept even if the set empties.
Returns the new state and the list of attempted sids. -/
def broadcast_to_user (deliver_ok : String → Bool) (st : WsState)
    (user_id : String) : WsState × List String :=
  match assoc_lookup st.active_connections user_id with
  | none => (st, [])
  | some sids =>
    ({ st with active_connections :=
        assoc_set st.active_connections user_id (sids.filter deliver_ok) },
      sids)

/-- Lookup after setting the same key returns the set value. -/
theorem assoc_lookup_set_self {α : Type} :
    ∀ (l : List (String × α)) (k : String) (v : α),
      assoc_lookup (assoc_set l k v) k = some v := by
  intro l k v
  induction l with
  | nil => simp [assoc_set, assoc_lookup]
  | cons q rest ih =>
    obtain ⟨k', v'⟩ := q
    rw [assoc_set]
    by_cases hk : (k' == k) = true
    · rw [if_pos hk, assoc_lookup]
      simp
    · rw [if_neg hk, assoc_lookup, if_neg hk]
      exact ih

/-- Entries after a dict assignment come from the old dict or are the new
entry. -/
theorem mem_assoc_set {α : Type} :
    ∀ (l : List (String × α)) (k : String) (v : α) (p : String × α),
      p ∈ assoc_set l k v → p ∈ l ∨ p = (k, v) := by
  intro l k v
  induction l with
  | nil =>
    intro p hp
    simp [assoc_set] at hp
    exact Or.inr hp
  | cons q rest ih =>
    obtain ⟨k', v'⟩ := q
    intro p hp
    rw [assoc_set] at hp
    by_cases hk : (k' == k) = true
    · rw [if_pos hk] at hp
      rcases List.mem_cons.mp hp with rfl | h
      · exact Or.inr rfl
      · exact Or.inl (List.mem_cons_of_mem _ h)
    · rw [if_neg hk] at hp
      rcases List.mem_cons.mp hp with rfl | h
      · exact Or.inl (List.mem_cons_self _ _)
      · rcases ih p h with h1 | h2
        · exact Or.inl (List.mem_cons_of_mem _ h1)
        · exact Or.inr h2

/-- Entries after a dict deletion come from the old dict. -/
theorem mem_assoc_remove {α : Type} :
    ∀ (l : List (String × α)) (k : String) (p : String × α),
      p ∈ assoc_remove l k → p ∈ l := by
  intro l k
  induction l with
  | nil => intro p hp; simp [assoc_remove] at hp
  | cons q rest ih =>
    obtain ⟨k', v'⟩ := q
    intro p hp
    rw [assoc_remove] at hp
    by_cases hk : (k' == k) = true
    · rw [if_pos hk] at hp
      exact List.mem_cons_of_mem _ hp
    · rw [if_neg hk] at hp
      rcases List.mem_cons.mp hp with rfl | h
      · exact List.mem_cons_self _ _
      · exact List.mem_cons_of_mem _ (ih p h)

/-- C6: publishing to a user with a registered connection set attempts
delivery to every connection in that set (all of them, regardless of
failures), a failed delivery removes only that connection from the
registry, and the function is total (no error reaches the publisher); a
user with no registered connections gets a dropped result, no attempts and
an unchanged registry. -/
theorem broadcast_fanout_claim :
    (∀ (deliver_ok : String → Bool) (st : WsState) (user_id : String)
        (sids : List String),
        assoc_lookup st.active_connections user_id = some sids →
        (broadcast_to_user deliver_ok st user_id).2 = sids
        ∧ assoc_lookup
            (broadcast_to_user deliver_ok st user_id).1.active_connections
            user_id = some (sids.filter deliver_ok))
    ∧ (∀ (deliver_ok : String → Bool) (st : WsState) (user_id : String),
        assoc_lookup st.active_connections user_id = none →
        broadcast_to_user deliver_ok st user_id = (st, [])) := by
  constructor
  · intro deliver_ok st user_id sids h
    rw [broadcast_to_user, h]
    exact ⟨rfl, assoc_lookup_set_self _ _ _⟩
  · intro deliver_ok st user_id h
    rw [broadcast_to_user, h]

/-- Concrete registry: user u1 with three live connections. -/
def st6 : WsState :=
  ⟨[("u1", ["s1", "s2", "s3"])], [("s1", "u1"), ("s2", "u1"), ("s3", "u1")]⟩

/-- Delivery outcome in which only connection s2 fails. -/
def fail2 : String → Bool := fun sid => sid != "s2"

/-- Witness for C6: a user with 3 live connections gets exactly the 3
attempts [s1, s2, s3]; the failure of s2 removes only s2, keeping s1 and
s3; an unknown user gives no attempts and no state change. -/
theorem broadcast_fanout_claim_witness :
    (broadcast_to_user fail2 st6 "u1").2 = ["s1", "s2", "s3"]
    ∧ assoc_lookup (broadcast_to_user fail2 st6 "u1").1.active_connections "u1"
        = some (["s1", "s2", "s3"].filter fail2)
    ∧ ["s1", "s2", "s3"].filter fail2 = ["s1", "s3"]
    ∧ broadcast_to_user fail2 ⟨[], []⟩ "u9" = (⟨[], []⟩, []) := by
  have h := broadcast_fanout_claim.1 fail2 st6 "u1" ["s1", "s2", "s3"] rfl
  exact ⟨h.1, h.2, rfl, broadcast_fanout_claim.2 fail2 ⟨[], []⟩ "u9" rfl⟩

/-- The claimed registry invariant: every user key present maps to a
non-empty connection set. -/
def registry_nonempty_inv (st : WsState) : Prop :=
  ∀ p ∈ st.active_connections, p.2 ≠ []

/-- Registry with one user holding one connection. -/
def st7 : WsState := ⟨[("u1", ["s1"])], [("s1", "u1")]⟩

/-- C7 counterexample: a delivery failure to the only connection of u1
leaves the key u1 in the registry with an empty set — `broadcast_to_user`
discards the stale sid but never deletes the emptied user key, so the
claimed invariant fails after a delivery-time removal. -/
theorem registry_empty_set_counterexample :
    registry_nonempty_inv st7
    ∧ ¬ registry_nonempty_inv (broadcast_to_user (fun _ => false) st7 "u1").1 := by
  constructor
  · intro p hp
    simp [st7] at hp
    rw [hp]
    simp
  · intro h
    have hmem : ("u1", ([] : List String))
        ∈ (broadcast_to_user (fun _ => false) st7 "u1").1.active_connections := by
      rw [show (broadcast_to_user (fun _ => false) st7 "u1").1.active_connections
          = [("u1", [])] from rfl]
      simp
    exact h _ hmem rfl

/-- C7 amended: the connect and disconnect handlers preserve the
non-empty-sets invariant (disconnect deletes an emptied user key), but the
delivery-time removal in `broadcast_to_user` does not delete an emptied
key, so the invariant holds after connect and disconnect only. -/
theorem registry_inv_amended :
    (∀ (st : WsState) (sid : String) (auth_user : Option String),
        registry_nonempty_inv st →
        registry_nonempty_inv (ws_connect st sid auth_user).1)
    ∧ (∀ (st : WsState) (sid : String),
        registry_nonempty_inv st →
        registry_nonempty_inv (ws_disconnect st sid)) := by
  constructor
  · intro st sid auth_user hinv
    cases auth_user with
    | none => exact hinv
    | some user_id =>
      intro p hp
      have hp' : p ∈ assoc_set st.active_connections user_id
          (conn_add ((assoc_lookup st.active_connections user_id).getD []) sid) := hp
      rcases mem_assoc_set _ _ _ _ hp' with h1 | h2
      · exact hinv p h1
      · rw [h2]
        rw [conn_add]
        by_cases hmem : sid ∈ (assoc_lookup st.active_connections user_id).getD []
        · rw [if_pos hmem]
          exact List.ne_nil_of_mem hmem
        · rw [if_neg hmem]
          simp
  · intro st sid hinv
    unfold ws_disconnect
    split
    · exact hinv
    · split
      · exact hinv
      · split
        · intro p hp
          exact hinv p (mem_assoc_remove _ _ _ hp)
        · rename_i hne
          intro p hp
          rcases mem_assoc_set _ _ _ _ hp with h1 | h2
          · exact hinv p h1
          · rw [h2]
            intro hnil
            exact hne (List.isEmpty_iff.mpr hnil)

/-- Witness for the amended C7: connecting a first user to an empty
registry and disconnecting the last connection of u1 both leave only
non-empty sets. -/
theorem registry_inv_amended_witness :
    registry_nonempty_inv (ws_connect ⟨[], []⟩ "s1" (some "u1")).1
    ∧ registry_nonempty_inv (ws_disconnect st7 "s1") :=
  ⟨registry_inv_amended.1 ⟨[], []⟩ "s1" (some "u1")
      (by intro p hp; simp at hp),
    registry_inv_amended.2 st7 "s1"
      (by intro p hp; simp [st7] at hp; rw [hp]; simp)⟩
